import Mathlib

/-!
# fee-porta: the request-status workflow and the account model of `server.js`

A shallow embedding of the route handlers of `src/server.js`.

Modelling decisions (all of them about the libraries the source calls, none about the
handlers themselves):

* The two MongoDB collections are lists of documents in insertion order.  `findOne` and
  `findById` return the first document that matches, `find` returns every match, the
  `save()` of a new document appends it, and the `save()` of a document obtained from
  `findById` rewrites the first document with that `_id`.
* An `_id` is a natural number.  The `_id` of a new document is computed from the
  collection (`freshId`) and differs from every `_id` already there.
* The request bodies are typed: a field the handler passes on to a `String` path that may be
  absent is an `Option String`, a numeric field is an `Option Int`.  An id that a client
  sends either casts to an `ObjectId` or does not (`IdParam`); `findById` on one that does
  not cast throws, which a handler with a `catch` answers with 500 and a handler without one
  does not answer at all.  Failures of the database connection are outside the model.
* `bcrypt.hash`, `bcrypt.compare` and `jwt.sign` are parameters (`Lib`); the random salt of
  `bcrypt.hash` is an explicit input of the signup operation.
* Schema validation at `save()` is modelled for the two `enum` paths and the `required`
  path of the schemas.  A rejected promise that the handler does not catch is the outcome
  `threw`.
-/

namespace FeePortal

abbrev ObjectId := Nat

/-- An id as a client sends it, in a body or in the path: a value that casts to an
`ObjectId`, or one that does not. -/
inductive IdParam where
  | objectId (id : ObjectId)
  | malformed (raw : String)
  deriving DecidableEq, Repr

/-- The library functions the handlers call: `bcrypt.hash(password, rounds)` with its random
salt made explicit, `bcrypt.compare(password, hash)`, and `jwt.sign(payload, secret, options)`
on the payload of the `id` and the `role`. -/
structure Lib where
  hash : String → Nat → String → String
  compare : String → String → Bool
  sign : ObjectId → String → String → String → String

/-- A document of `userSchema`. -/
structure User where
  id : ObjectId
  username : String
  email : String
  password : String
  role : String
  deriving DecidableEq, Repr

/-- A document of `feeRequestSchema`. -/
structure FeeRequest where
  id : ObjectId
  studentName : Option String
  regNumber : Option String
  year : Option String
  branch : Option String
  section_ : Option String
  feeType : Option String
  status : String
  reason : Option String
  faculty : Option String
  amount : Option Int
  crtFee : Int
  attendance : String
  deriving DecidableEq, Repr

/-- The database: the `User` collection and the `FeeRequest` collection. -/
structure Store where
  users : List User
  requests : List FeeRequest
  deriving DecidableEq, Repr

/-- The database with no document in it. -/
def Store.empty : Store := { users := [], requests := [] }

/-- The JSON payloads the handlers send. -/
inductive Body where
  | error (error : String)
  | message (message : String)
  | signedUp (message redirect : String)
  | loggedIn (message token role redirect : String)
  | requests (docs : List FeeRequest)
  | request (doc : FeeRequest)
  | status (status : String)
  deriving DecidableEq, Repr

/-- What a handler does with the response: it sends a status code and a JSON body, or its
promise rejects without any response having been sent. -/
inductive Outcome where
  | sent (code : Nat) (body : Body)
  | threw (err : String)
  deriving DecidableEq, Repr

/-- The body of `POST /signup`. -/
structure SignupBody where
  username : String
  email : String
  password : String
  designation : String
  deriving DecidableEq, Repr

/-- The body of `POST /login`. -/
structure LoginBody where
  email : String
  password : String
  deriving DecidableEq, Repr

/-- The body of `POST /request-fee`.  `status` is a field a client may send along; the handler
does not destructure it. -/
structure FeeBody where
  studentName : Option String
  regNumber : Option String
  year : Option String
  branch : Option String
  section_ : Option String
  feeType : Option String
  amount : Option Int
  crtFee : Option Int
  attendance : Option String
  status : Option String
  deriving DecidableEq, Repr

/-- The body of `POST /faculty/update`. -/
structure UpdateBody where
  id : IdParam
  status : String
  reason : Option String
  faculty : Option String
  deriving DecidableEq, Repr

/-- JavaScript `x || d` on a string that may be absent: the empty string is falsy. -/
def orStr (x : Option String) (d : String) : String :=
  match x with
  | some v => if v = "" then d else v
  | none => d

/-- JavaScript `x || d` on a number that may be absent: zero is falsy. -/
def orNum (x : Option Int) (d : Int) : Int :=
  match x with
  | some v => if v = 0 then d else v
  | none => d

/-- An `_id` that no document of the collection has: one more than the largest. -/
def freshId (ids : List ObjectId) : ObjectId :=
  ids.foldr (fun i acc => max (i + 1) acc) 0

/-- `User.findOne` on the `email` path. -/
def findUserByEmail (us : List User) (email : String) : Option User :=
  us.find? (fun u => decide (u.email = email))

/-- `FeeRequest.findById(id)`. -/
def findById (rs : List FeeRequest) (id : ObjectId) : Option FeeRequest :=
  rs.find? (fun r => decide (r.id = id))

/-- `FeeRequest.findOne` on the `regNumber` path. -/
def findByRegNumber (rs : List FeeRequest) (regNumber : String) : Option FeeRequest :=
  rs.find? (fun r => decide (r.regNumber = some regNumber))

/-- `request.save()` for a document that came out of the collection: the first document with
its `_id` is rewritten. -/
def saveExisting (r : FeeRequest) : List FeeRequest → List FeeRequest
  | [] => []
  | x :: xs => if x.id = r.id then r :: xs else x :: saveExisting r xs

/-- The `enum` of `userSchema.role`. -/
def roleEnum : List String := ["student", "faculty", "hod"]

/-- The `enum` of `feeRequestSchema.feeType`. -/
def feeTypeEnum : List String := ["semester", "minor"]

/-- Validation of a `User` at `save()`: `role` is required and in its enum. -/
def validUser (u : User) : Bool :=
  decide (u.role ≠ "") && decide (u.role ∈ roleEnum)

/-- Validation of a `FeeRequest` at `save()`: `feeType`, when present, is in its enum. -/
def validFeeRequest (r : FeeRequest) : Bool :=
  match r.feeType with
  | none => true
  | some t => decide (t ∈ feeTypeEnum)

/-- The document that `new User(...)` builds in the handler of `POST /signup`, with the
password hashed at cost 10. -/
def newUser (lib : Lib) (s : Store) (b : SignupBody) (salt : String) : User :=
  { id := freshId (s.users.map User.id),
    username := b.username,
    email := b.email,
    password := lib.hash b.password 10 salt,
    role := b.designation }

/-- The handler of `POST /signup`. -/
def signup (lib : Lib) (s : Store) (b : SignupBody) (salt : String) : Store × Outcome :=
  match findUserByEmail s.users b.email with
  | some _ => (s, .sent 400 (.error "Email already exists"))
  | none =>
    if validUser (newUser lib s b salt) then
      ({ s with users := s.users ++ [newUser lib s b salt] },
        .sent 200 (.signedUp "Signup successful!" "/login.html"))
    else
      (s, .sent 500 (.error "Signup failed"))

/-- The `redirect` the login handler picks for a role. -/
def redirectFor (role : String) : String :=
  if role = "student" then "/main.html"
  else if role = "faculty" then "/faculty.html"
  else if role = "hod" then "/hod.html"
  else "/main.html"

/-- The handler of `POST /login`. -/
def login (lib : Lib) (s : Store) (b : LoginBody) : Store × Outcome :=
  match findUserByEmail s.users b.email with
  | none => (s, .sent 400 (.error "Invalid credentials"))
  | some user =>
    let isMatch := lib.compare b.password user.password
    if !isMatch then (s, .sent 400 (.error "Invalid credentials"))
    else
      let token := lib.sign user.id user.role "secret123" "1h"
      let redirect := redirectFor user.role
      (s, .sent 200 (.loggedIn "Login successful" token user.role redirect))

/-- The document that `new FeeRequest(...)` builds in the handler of `POST /request-fee`:
the nine destructured fields, `crtFee || 0`, `attendance || ""`, and the schema default of
`status`. -/
def newRequest (s : Store) (b : FeeBody) : FeeRequest :=
  { id := freshId (s.requests.map FeeRequest.id),
    studentName := b.studentName,
    regNumber := b.regNumber,
    year := b.year,
    branch := b.branch,
    section_ := b.section_,
    feeType := b.feeType,
    status := "Pending",
    reason := none,
    faculty := none,
    amount := b.amount,
    crtFee := orNum b.crtFee 0,
    attendance := orStr b.attendance "" }

/-- The handler of `POST /request-fee`. -/
def requestFee (s : Store) (b : FeeBody) : Store × Outcome :=
  if validFeeRequest (newRequest s b) then
    ({ s with requests := s.requests ++ [newRequest s b] },
      .sent 200 (.message "Fee request submitted successfully!"))
  else
    (s, .threw "ValidationError")

/-- The handler of `GET /requests`. -/
def getRequests (s : Store) : Store × Outcome :=
  let requests := s.requests.filter (fun r => decide (r.status = "Pending"))
  (s, .sent 200 (.requests requests))

/-- The handler of `GET /all-requests`. -/
def getAllRequests (s : Store) : Store × Outcome :=
  let requests := s.requests.filter (fun _ => true)
  (s, .sent 200 (.requests requests))

/-- The handler of `POST /faculty/update`. -/
def facultyUpdate (s : Store) (b : UpdateBody) : Store × Outcome :=
  match b.id with
  | .malformed _ => (s, .threw "CastError")
  | .objectId id =>
    match findById s.requests id with
    | none => (s, .sent 404 (.error "Request not found"))
    | some request =>
      let request := { request with status := b.status }
      let request := { request with reason := some (orStr b.reason "") }
      let request := { request with faculty := b.faculty }
      ({ s with requests := saveExisting request s.requests },
        .sent 200 (.message "Request updated successfully!"))

/-- The handler of `GET /request/:id`. -/
def getRequest (s : Store) (id : IdParam) : Store × Outcome :=
  match id with
  | .malformed _ => (s, .sent 500 (.error "Failed to fetch request"))
  | .objectId id =>
    match findById s.requests id with
    | none => (s, .sent 404 (.error "Request not found"))
    | some request => (s, .sent 200 (.request request))

/-- The handler of `GET /status/:regNumber`. -/
def getStatus (s : Store) (regNumber : String) : Store × Outcome :=
  match findByRegNumber s.requests regNumber with
  | none => (s, .sent 200 (.status "Not Found"))
  | some request => (s, .sent 200 (.request request))

/-- The handler of `POST /pay-fee`. -/
def payFee (s : Store) (requestId : IdParam) : Store × Outcome :=
  match requestId with
  | .malformed _ => (s, .sent 500 (.error "Payment failed"))
  | .objectId id =>
    match findById s.requests id with
    | none => (s, .sent 404 (.error "Request not found"))
    | some request =>
      if request.status ≠ "Approved" then
        (s, .sent 400 (.error "Request not approved for payment"))
      else
        let request := { request with status := "Paid" }
        ({ s with requests := saveExisting request s.requests },
          .sent 200 (.message "Payment successful!"))

/-- One call of the HTTP surface. -/
inductive Op where
  | signup (b : SignupBody) (salt : String)
  | login (b : LoginBody)
  | requestFee (b : FeeBody)
  | requests
  | allRequests
  | facultyUpdate (b : UpdateBody)
  | request (id : IdParam)
  | status (regNumber : String)
  | payFee (requestId : IdParam)
  deriving DecidableEq, Repr

/-- The router: one call is handled by the handler of its route. -/
def step (lib : Lib) (s : Store) : Op → Store × Outcome
  | .signup b salt => signup lib s b salt
  | .login b => login lib s b
  | .requestFee b => requestFee s b
  | .requests => getRequests s
  | .allRequests => getAllRequests s
  | .facultyUpdate b => facultyUpdate s b
  | .request id => getRequest s id
  | .status regNumber => getStatus s regNumber
  | .payFee requestId => payFee s requestId

/-- The store after a sequence of calls, handled one after the other. -/
def run (lib : Lib) (s : Store) : List Op → Store
  | [] => s
  | op :: ops => run lib (step lib s op).1 ops

/-- A store is reachable when a sequence of calls leads to it from the empty database. -/
def Reachable (lib : Lib) (s : Store) : Prop :=
  ∃ ops : List Op, run lib Store.empty ops = s

/-- A toy instance of the libraries, for evaluating the handlers on concrete inputs: the hash
is the salt, a dollar sign and the password; a password matches the hashes that end in a
dollar sign and the password. -/
def toyLib : Lib where
  hash := fun password _ salt => salt ++ "$" ++ password
  compare := fun password h => ("$" ++ password).data.isSuffixOf h.data
  sign := fun _ role secret expiresIn => role ++ "." ++ secret ++ "." ++ expiresIn

/-- Whether a response went out with the success code. -/
def Outcome.isSuccess : Outcome → Bool
  | .sent code _ => code == 200
  | .threw _ => false

/-- The fields of a request that come from the submission and are no part of the workflow. -/
def FeeRequest.feeFields (r : FeeRequest) :
    Option String × Option String × Option String × Option String × Option String ×
      Option String × Option Int × Int × String :=
  (r.studentName, r.regNumber, r.year, r.branch, r.section_, r.feeType, r.amount, r.crtFee,
    r.attendance)

/-- A request after the three assignments of the handler of `POST /faculty/update`. -/
def FeeRequest.decided (r : FeeRequest) (b : UpdateBody) : FeeRequest :=
  { r with status := b.status, reason := some (orStr b.reason ""), faculty := b.faculty }

/-- A request after the assignment of the handler of `POST /pay-fee`. -/
def FeeRequest.paid (r : FeeRequest) : FeeRequest :=
  { r with status := "Paid" }

/-! ## Concrete inputs -/

/-- A submission of 5000 for a semester fee, with no `crtFee` and no `attendance`, that also
carries a `status` of its own. -/
def sampleBody : FeeBody :=
  { studentName := some "Asha", regNumber := some "21BCE001", year := some "3",
    branch := some "CSE", section_ := some "A", feeType := some "semester",
    amount := some 5000, crtFee := none, attendance := none, status := some "Paid" }

/-- A submission whose `feeType` is outside the enum. -/
def badFeeTypeBody : FeeBody := { sampleBody with feeType := some "hostel" }

/-- The request `sampleBody` becomes when it is the first of the collection. -/
def sampleRequest : FeeRequest :=
  { id := 0, studentName := some "Asha", regNumber := some "21BCE001", year := some "3",
    branch := some "CSE", section_ := some "A", feeType := some "semester",
    status := "Pending", reason := none, faculty := none, amount := some 5000, crtFee := 0,
    attendance := "" }

/-- An approved request, id 1. -/
def approvedRequest : FeeRequest :=
  { sampleRequest with id := 1, status := "Approved", regNumber := some "21BCE002" }

/-- A rejected request, id 2. -/
def rejectedRequest : FeeRequest :=
  { sampleRequest with id := 2, status := "Rejected", regNumber := some "21BCE003" }

/-- A paid request, id 3. -/
def paidRequest : FeeRequest :=
  { sampleRequest with id := 3, status := "Paid", regNumber := some "21BCE004" }

/-- A store with one request in each of the four states, ids 0 to 3. -/
def fourStore : Store :=
  { users := [],
    requests := [sampleRequest, approvedRequest, rejectedRequest, paidRequest] }

/-- A signup of a student. -/
def sampleSignup : SignupBody :=
  { username := "asha", email := "asha@example.org", password := "pw1",
    designation := "student" }

/-- A store with one faculty account, as `toyLib` hashes it. -/
def oneUserStore : Store :=
  { users :=
      [ { id := 0, username := "ravi", email := "ravi@example.org", password := "s$pw2",
          role := "faculty" } ],
    requests := [] }

/-! ## Lemmas about the collections -/

theorem orStr_some_empty (r : String) : orStr (some r) "" = r := by
  unfold orStr
  by_cases h : r = ""
  · simp [h]
  · simp [h]

theorem lt_freshId (ids : List ObjectId) : ∀ i ∈ ids, i < freshId ids := by
  induction ids with
  | nil => intro i hi; cases hi
  | cons a as ih =>
    intro i hi
    have hstep : freshId (a :: as) = max (a + 1) (freshId as) := rfl
    rw [hstep]
    rcases List.mem_cons.mp hi with h | h
    · subst h; exact lt_of_lt_of_le (Nat.lt_succ_self _) (le_max_left _ _)
    · exact lt_of_lt_of_le (ih i h) (le_max_right _ _)

theorem findById_fresh (rs : List FeeRequest) :
    findById rs (freshId (rs.map FeeRequest.id)) = none := by
  unfold findById
  rw [List.find?_eq_none]
  intro x hx hEq
  have hlt := lt_freshId (rs.map FeeRequest.id) x.id (List.mem_map_of_mem _ hx)
  have hid : x.id = freshId (rs.map FeeRequest.id) := by simpa using hEq
  exact absurd hid (Nat.ne_of_lt hlt)

theorem findById_id {rs : List FeeRequest} {i : ObjectId} {r : FeeRequest}
    (h : findById rs i = some r) : r.id = i := by
  have := List.find?_some h
  simpa using this

theorem findById_append (rs : List FeeRequest) (r : FeeRequest) (i : ObjectId) :
    findById (rs ++ [r]) i =
      match findById rs i with
      | some x => some x
      | none => if r.id = i then some r else none := by
  unfold findById
  rw [List.find?_append]
  cases h : List.find? (fun r => decide (r.id = i)) rs with
  | some x => simp
  | none =>
    by_cases hr : r.id = i
    · simp [List.find?, hr]
    · simp [List.find?, hr]

theorem findById_saveExisting (r : FeeRequest) (rs : List FeeRequest) (i : ObjectId) :
    findById (saveExisting r rs) i =
      if i = r.id then (findById rs i).map (fun _ => r) else findById rs i := by
  induction rs with
  | nil => simp [saveExisting, findById]
  | cons x xs ih =>
    unfold findById at ih ⊢
    by_cases hx : x.id = r.id
    · by_cases hi : i = r.id
      · simp [saveExisting, hx, hi, List.find?]
      · have hne : ¬ r.id = i := fun h => hi h.symm
        simp [saveExisting, hx, hi, hne, List.find?]
    · by_cases hxi : x.id = i
      · have hi : ¬ i = r.id := fun h => hx (hxi.trans h)
        simp [saveExisting, hx, hxi, hi, List.find?]
      · simp only [saveExisting, hx, if_false, List.find?, hxi, decide_False]
        exact ih

theorem payFee_of_approved (s : Store) (i : ObjectId) (r : FeeRequest)
    (hr : findById s.requests i = some r) (hst : r.status = "Approved") :
    (payFee s (.objectId i)).2 = .sent 200 (.message "Payment successful!") ∧
    findById (payFee s (.objectId i)).1.requests i = some { r with status := "Paid" } := by
  have hid := findById_id hr
  simp [payFee, hr, hst, findById_saveExisting, hid]

theorem findUserByEmail_eq_none (us : List User) (e : String) :
    findUserByEmail us e = none ↔ ∀ u ∈ us, u.email ≠ e := by
  unfold findUserByEmail
  rw [List.find?_eq_none]
  constructor
  · intro h u hu; simpa using h u hu
  · intro h u hu; simpa using h u hu

theorem findUserByEmail_append (us : List User) (u x : User) (e : String)
    (h : findUserByEmail us e = some x) : findUserByEmail (us ++ [u]) e = some x := by
  unfold findUserByEmail at h ⊢
  rw [List.find?_append, h]
  rfl

theorem signup_users (lib : Lib) (s : Store) (b : SignupBody) (salt : String) :
    (signup lib s b salt).1 = s ∨
      (findUserByEmail s.users b.email = none ∧
        (signup lib s b salt).1.requests = s.requests ∧
        (signup lib s b salt).1.users = s.users ++
          [newUser lib s b salt]) := by
  unfold signup
  cases hu : findUserByEmail s.users b.email with
  | some u => left; rfl
  | none =>
    by_cases hv : validUser (newUser lib s b salt) = true
    · right; simp [hv]
    · left; simp [hv]

theorem step_users (lib : Lib) (s : Store) (op : Op) :
    (step lib s op).1.users = s.users ∨
      ∃ u, findUserByEmail s.users u.email = none ∧ (step lib s op).1.users = s.users ++ [u] := by
  cases op with
  | signup b salt =>
    rcases signup_users lib s b salt with h | ⟨h1, _, h3⟩
    · left; simp [step, h]
    · right; exact ⟨_, h1, by simpa [step] using h3⟩
  | login b =>
    left
    simp only [step, login]
    cases findUserByEmail s.users b.email with
    | none => rfl
    | some u => by_cases hm : lib.compare b.password u.password = true <;> simp [hm]
  | requestFee b =>
    left
    simp only [step, requestFee]
    by_cases hv : validFeeRequest (newRequest s b) = true <;> simp [hv]
  | requests => left; rfl
  | allRequests => left; rfl
  | facultyUpdate b =>
    left
    rcases b with ⟨_ | _, st, rs, fc⟩
    · simp only [step, facultyUpdate]
      cases findById s.requests _ <;> rfl
    · rfl
  | request id =>
    left
    cases id with
    | malformed raw => rfl
    | objectId i =>
      simp only [step, getRequest]
      cases findById s.requests i <;> rfl
  | status reg =>
    left
    simp only [step, getStatus]
    cases findByRegNumber s.requests reg <;> rfl
  | payFee p =>
    left
    cases p with
    | malformed raw => rfl
    | objectId i =>
      simp only [step, payFee]
      cases findById s.requests i with
      | none => rfl
      | some r => by_cases hst : r.status = "Approved" <;> simp [hst]

theorem step_findUser (lib : Lib) (s : Store) (op : Op) (e : String) (x : User)
    (h : findUserByEmail s.users e = some x) :
    findUserByEmail (step lib s op).1.users e = some x := by
  rcases step_users lib s op with h1 | ⟨u, _, h2⟩
  · rw [h1]; exact h
  · rw [h2]; exact findUserByEmail_append _ _ _ _ h

theorem run_findUser (lib : Lib) (ops : List Op) (s : Store) (e : String) (x : User)
    (h : findUserByEmail s.users e = some x) :
    findUserByEmail (run lib s ops).users e = some x := by
  induction ops generalizing s with
  | nil => exact h
  | cons op ops ih => exact ih _ (step_findUser lib s op e x h)

theorem step_emails_nodup (lib : Lib) (s : Store) (op : Op)
    (h : (s.users.map User.email).Nodup) :
    ((step lib s op).1.users.map User.email).Nodup := by
  rcases step_users lib s op with h1 | ⟨u, hnone, h2⟩
  · rw [h1]; exact h
  · rw [h2, List.map_append]
    refine List.Nodup.append h (List.nodup_singleton _) ?_
    intro e he1 he2
    have he : e = u.email := by simpa using he2
    subst he
    rcases List.mem_map.mp he1 with ⟨v, hv, hve⟩
    exact (findUserByEmail_eq_none _ _).mp hnone v hv hve

theorem run_emails_nodup (lib : Lib) (ops : List Op) (s : Store)
    (h : (s.users.map User.email).Nodup) :
    ((run lib s ops).users.map User.email).Nodup := by
  induction ops generalizing s with
  | nil => exact h
  | cons op ops ih => exact ih _ (step_emails_nodup lib s op h)

theorem toyLib_compare_hash (p : String) (n : Nat) (t : String) :
    toyLib.compare p (toyLib.hash p n t) = true := by
  show ("$" ++ p).data.isSuffixOf ((t ++ "$" ++ p).data) = true
  rw [List.isSuffixOf_iff_suffix]
  simp only [String.data_append, List.append_assoc]
  exact List.suffix_append _ _

theorem saveExisting_at (r : FeeRequest) (rs : List FeeRequest) (k : Nat)
    (x : FeeRequest) (h : rs[k]? = some x) :
    (saveExisting r rs)[k]? = some x ∨
      (findById rs r.id = some x ∧ (saveExisting r rs)[k]? = some r) := by
  induction rs generalizing k with
  | nil => simp at h
  | cons y ys ih =>
    by_cases hy : y.id = r.id
    · cases k with
      | zero =>
        have hxy : y = x := by simpa using h
        subst hxy
        right
        exact ⟨by simp [findById, List.find?, hy], by simp [saveExisting, hy]⟩
      | succ k =>
        left
        simpa [saveExisting, hy] using h
    · cases k with
      | zero =>
        left
        simpa [saveExisting, hy] using h
      | succ k =>
        have h2 : ys[k]? = some x := by simpa using h
        rcases ih k h2 with h3 | ⟨h3, h4⟩
        · left; simpa [saveExisting, hy] using h3
        · right
          refine ⟨?_, by simpa [saveExisting, hy] using h4⟩
          unfold findById at h3 ⊢
          simpa [List.find?, hy] using h3

theorem getElem?_append_single (rs : List FeeRequest) (x r : FeeRequest) (k : Nat)
    (h : rs[k]? = some r) : (rs ++ [x])[k]? = some r := by
  have hk : k < rs.length := by
    by_contra hk
    have hnone : rs[k]? = none := List.getElem?_eq_none (Nat.le_of_not_lt hk)
    rw [hnone] at h
    cases h
  rw [List.getElem?_append, if_pos hk]
  exact h

theorem facultyUpdate_malformed (s : Store) (b : UpdateBody) (raw : String)
    (hb : b.id = .malformed raw) : facultyUpdate s b = (s, .threw "CastError") := by
  unfold facultyUpdate
  rw [hb]

theorem facultyUpdate_none (s : Store) (b : UpdateBody) (i : ObjectId)
    (hb : b.id = .objectId i) (hf : findById s.requests i = none) :
    facultyUpdate s b = (s, .sent 404 (.error "Request not found")) := by
  unfold facultyUpdate
  rw [hb]
  simp only [hf]

theorem facultyUpdate_some (s : Store) (b : UpdateBody) (i : ObjectId) (req : FeeRequest)
    (hb : b.id = .objectId i) (hf : findById s.requests i = some req) :
    facultyUpdate s b =
      ({ s with requests := saveExisting (FeeRequest.decided req b) s.requests },
        .sent 200 (.message "Request updated successfully!")) := by
  unfold facultyUpdate
  rw [hb]
  simp only [hf]
  rfl

theorem payFee_none (s : Store) (i : ObjectId) (hf : findById s.requests i = none) :
    payFee s (.objectId i) = (s, .sent 404 (.error "Request not found")) := by
  simp only [payFee, hf]

theorem payFee_not_approved (s : Store) (i : ObjectId) (req : FeeRequest)
    (hf : findById s.requests i = some req) (hst : req.status ≠ "Approved") :
    payFee s (.objectId i) = (s, .sent 400 (.error "Request not approved for payment")) := by
  simp only [payFee, hf]
  rw [if_pos hst]

theorem payFee_approved (s : Store) (i : ObjectId) (req : FeeRequest)
    (hf : findById s.requests i = some req) (hst : req.status = "Approved") :
    payFee s (.objectId i) =
      ({ s with requests := saveExisting (FeeRequest.paid req) s.requests },
        .sent 200 (.message "Payment successful!")) := by
  simp only [payFee, hf]
  rw [if_neg (not_not.mpr hst)]
  rfl

theorem facultyUpdate_at (s : Store) (b : UpdateBody) (k : Nat) (r : FeeRequest)
    (h : s.requests[k]? = some r) :
    (facultyUpdate s b).1.requests[k]? = some r ∨
      (b.id = .objectId r.id ∧ findById s.requests r.id = some r ∧
        (facultyUpdate s b).1.requests[k]? =
          some { r with status := b.status, reason := some (orStr b.reason ""),
                        faculty := b.faculty }) := by
  cases hb : b.id with
  | malformed raw =>
    left
    rw [facultyUpdate_malformed s b raw hb]
    exact h
  | objectId i =>
    cases hf : findById s.requests i with
    | none =>
      left
      rw [facultyUpdate_none s b i hb hf]
      exact h
    | some req =>
      have hid := findById_id hf
      rw [facultyUpdate_some s b i req hb hf]
      rcases saveExisting_at (FeeRequest.decided req b) s.requests k r h with h1 | ⟨h1, h2⟩
      · left; exact h1
      · right
        have hreq : req = r := by
          have h1b : findById s.requests req.id = some r := h1
          rw [hid, hf] at h1b
          exact Option.some.inj h1b
        subst hreq
        exact ⟨by rw [hid], by rw [hid]; exact hf, h2⟩

theorem payFee_at (s : Store) (p : IdParam) (k : Nat) (r : FeeRequest)
    (h : s.requests[k]? = some r) :
    (payFee s p).1.requests[k]? = some r ∨
      (p = .objectId r.id ∧ r.status = "Approved" ∧
        (payFee s p).1.requests[k]? = some { r with status := "Paid" }) := by
  cases p with
  | malformed raw => left; exact h
  | objectId i =>
    cases hf : findById s.requests i with
    | none =>
      left
      rw [payFee_none s i hf]
      exact h
    | some req =>
      have hid := findById_id hf
      by_cases hst : req.status = "Approved"
      · rw [payFee_approved s i req hf hst]
        rcases saveExisting_at (FeeRequest.paid req) s.requests k r h with h1 | ⟨h1, h2⟩
        · left; exact h1
        · right
          have hreq : req = r := by
            have h1b : findById s.requests req.id = some r := h1
            rw [hid, hf] at h1b
            exact Option.some.inj h1b
          subst hreq
          exact ⟨by rw [hid], hst, h2⟩
      · left
        rw [payFee_not_approved s i req hf hst]
        exact h

theorem step_requests_other (lib : Lib) (s : Store) (op : Op)
    (hu : ∀ b, op ≠ .facultyUpdate b) (hp : ∀ i, op ≠ .payFee i) :
    (step lib s op).1.requests = s.requests ∨
      ∃ x, (step lib s op).1.requests = s.requests ++ [x] ∧ x.status = "Pending" ∧
        findById s.requests x.id = none := by
  cases op with
  | signup b salt =>
    left
    rcases signup_users lib s b salt with h | ⟨_, h2, _⟩
    · simp [step, h]
    · simpa [step] using h2
  | login b =>
    left
    simp only [step, login]
    cases findUserByEmail s.users b.email with
    | none => rfl
    | some u => by_cases hm : lib.compare b.password u.password = true <;> simp [hm]
  | requestFee b =>
    simp only [step, requestFee]
    by_cases hv : validFeeRequest (newRequest s b) = true
    · right
      rw [if_pos hv]
      exact ⟨newRequest s b, rfl, rfl, findById_fresh s.requests⟩
    · left
      rw [if_neg hv]
  | requests => left; rfl
  | allRequests => left; rfl
  | facultyUpdate b => exact absurd rfl (hu b)
  | request id =>
    left
    cases id with
    | malformed raw => rfl
    | objectId i =>
      simp only [step, getRequest]
      cases findById s.requests i <;> rfl
  | status reg =>
    left
    simp only [step, getStatus]
    cases findByRegNumber s.requests reg <;> rfl
  | payFee i => exact absurd rfl (hp i)

theorem step_findById_feeFields (lib : Lib) (s : Store) (op : Op) (i : ObjectId)
    (r : FeeRequest) (h : findById s.requests i = some r) :
    ∃ r2, findById (step lib s op).1.requests i = some r2 ∧ r2.feeFields = r.feeFields := by
  by_cases hu : ∃ b, op = .facultyUpdate b
  · rcases hu with ⟨b, rfl⟩
    simp only [step]
    cases hb : b.id with
    | malformed raw =>
      rw [facultyUpdate_malformed s b raw hb]
      exact ⟨r, h, rfl⟩
    | objectId j =>
      cases hf : findById s.requests j with
      | none =>
        rw [facultyUpdate_none s b j hb hf]
        exact ⟨r, h, rfl⟩
      | some req =>
        have hid : (FeeRequest.decided req b).id = j := (findById_id hf : req.id = j)
        rw [facultyUpdate_some s b j req hb hf]
        by_cases hi : i = j
        · subst hi
          rw [hf] at h
          cases h
          exact ⟨FeeRequest.decided r b, by simp [findById_saveExisting, hid, hf], rfl⟩
        · exact ⟨r, by simp [findById_saveExisting, hid, hi, h], rfl⟩
  · by_cases hp : ∃ j, op = .payFee j
    · rcases hp with ⟨p, rfl⟩
      simp only [step]
      cases p with
      | malformed raw => exact ⟨r, h, rfl⟩
      | objectId j =>
        cases hf : findById s.requests j with
        | none =>
          rw [payFee_none s j hf]
          exact ⟨r, h, rfl⟩
        | some req =>
          have hid : (FeeRequest.paid req).id = j := (findById_id hf : req.id = j)
          by_cases hst : req.status = "Approved"
          · rw [payFee_approved s j req hf hst]
            by_cases hi : i = j
            · subst hi
              rw [hf] at h
              cases h
              exact ⟨FeeRequest.paid r, by simp [findById_saveExisting, hid, hf], rfl⟩
            · exact ⟨r, by simp [findById_saveExisting, hid, hi, h], rfl⟩
          · rw [payFee_not_approved s j req hf hst]
            exact ⟨r, h, rfl⟩
    · rcases step_requests_other lib s op (fun b hb => hu ⟨b, hb⟩) (fun j hj => hp ⟨j, hj⟩)
        with h1 | ⟨x, h1, _, _⟩
      · exact ⟨r, by rw [h1]; exact h, rfl⟩
      · exact ⟨r, by rw [h1, findById_append, h], rfl⟩

theorem run_findById_feeFields (lib : Lib) (ops : List Op) (s : Store) (i : ObjectId)
    (r : FeeRequest) (h : findById s.requests i = some r) :
    ∃ r2, findById (run lib s ops).requests i = some r2 ∧ r2.feeFields = r.feeFields := by
  induction ops generalizing s r with
  | nil => exact ⟨r, h, rfl⟩
  | cons op ops ih =>
    rcases step_findById_feeFields lib s op i r h with ⟨r1, h1, hf1⟩
    rcases ih (step lib s op).1 r1 h1 with ⟨r2, h2, hf2⟩
    exact ⟨r2, h2, hf2.trans hf1⟩

theorem requestFee_appends (s : Store) (b : FeeBody)
    (hv : b.feeType = none ∨ b.feeType = some "semester" ∨ b.feeType = some "minor") :
    (requestFee s b).1.requests = s.requests ++ [newRequest s b] := by
  have hvalid : validFeeRequest (newRequest s b) = true := by
    rcases hv with h | h | h <;> simp [validFeeRequest, newRequest, h, feeTypeEnum]
  rw [requestFee, if_pos hvalid]

theorem update_pay_run (lib : Lib) (s : Store) (i : ObjectId) (r f : String)
    (req : FeeRequest)
    (h : findById s.requests i = some req) :
    findById (run lib s [.facultyUpdate ⟨.objectId i, "Approved", some r, some f⟩,
        .payFee (.objectId i)]).requests i
      = some { req with status := "Paid", reason := some r, faculty := some f } := by
  have hid := findById_id h
  have h1 :
      findById (facultyUpdate s ⟨.objectId i, "Approved", some r, some f⟩).1.requests i =
      some { req with status := "Approved", reason := some r, faculty := some f } := by
    simp [facultyUpdate, h, findById_saveExisting, hid, orStr_some_empty]
  have hpay := payFee_of_approved _ i _ h1 rfl
  simp only [run, step]
  rw [hpay.2]

/-! ## The claims -/

/-- C1, as stated, fails: the id `not-an-objectid` is the id of no request of `fourStore`,
and `POST /pay-fee` with it answers 500 `Payment failed`, not 404. -/
theorem payFee_malformed_id_not_404 :
    (∀ r ∈ fourStore.requests, IdParam.objectId r.id ≠ .malformed "not-an-objectid") ∧
    payFee fourStore (.malformed "not-an-objectid") =
      (fourStore, .sent 500 (.error "Payment failed")) ∧
    (payFee fourStore (.malformed "not-an-objectid")).2 ≠
      .sent 404 (.error "Request not found") := by
  refine ⟨by decide, by decide, by decide⟩

/-- C1, amended: `POST /pay-fee` on a request whose status is not exactly `Approved` answers
400 and leaves the store as it is; on an id that casts to an `ObjectId` and that no request
has it answers 404 and leaves the store as it is; on an id that does not cast to an `ObjectId`
it answers 500 and leaves the store as it is; it answers with success only when the id is
that of a request whose status is `Approved`, and then the request has status `Paid`
afterwards. -/
theorem payFee_only_from_approved (s : Store) (i : ObjectId) (raw : String) :
    (∀ r, findById s.requests i = some r → r.status ≠ "Approved" →
        payFee s (.objectId i) =
          (s, .sent 400 (.error "Request not approved for payment"))) ∧
    (findById s.requests i = none →
        payFee s (.objectId i) = (s, .sent 404 (.error "Request not found"))) ∧
    payFee s (.malformed raw) = (s, .sent 500 (.error "Payment failed")) ∧
    (∀ p, (payFee s p).2.isSuccess = true ↔
        ∃ j r, p = .objectId j ∧ findById s.requests j = some r ∧ r.status = "Approved") ∧
    (∀ r, findById s.requests i = some r → r.status = "Approved" →
        (payFee s (.objectId i)).2 = .sent 200 (.message "Payment successful!") ∧
        (payFee s (.objectId i)).1.users = s.users ∧
        findById (payFee s (.objectId i)).1.requests i =
          some { r with status := "Paid" }) := by
  refine ⟨?_, ?_, rfl, ?_, ?_⟩
  · intro r hr hne
    exact payFee_not_approved s i r hr hne
  · intro hnone
    exact payFee_none s i hnone
  · intro p
    cases p with
    | malformed raw2 => simp [payFee, Outcome.isSuccess]
    | objectId j =>
      cases hr : findById s.requests j with
      | none => simp [payFee, hr, Outcome.isSuccess]
      | some r =>
        by_cases hst : r.status = "Approved"
        · simp [payFee, hr, hst, Outcome.isSuccess]
        · simp [payFee, hr, hst, Outcome.isSuccess]
  · intro r hr hst
    have hid := findById_id hr
    simp [payFee, hr, hst, findById_saveExisting, hid]

/-- C1 amended, at concrete inputs: paying the Pending, the Rejected and the Paid request of
`fourStore` answers 400, paying an unknown id answers 404, paying an id that is no `ObjectId`
answers 500, the store staying as it is; paying the Approved one succeeds. -/
theorem payFee_only_from_approved_witness :
    payFee fourStore (.objectId 0) =
      (fourStore, .sent 400 (.error "Request not approved for payment")) ∧
    payFee fourStore (.objectId 2) =
      (fourStore, .sent 400 (.error "Request not approved for payment")) ∧
    payFee fourStore (.objectId 3) =
      (fourStore, .sent 400 (.error "Request not approved for payment")) ∧
    payFee fourStore (.objectId 7) = (fourStore, .sent 404 (.error "Request not found")) ∧
    payFee fourStore (.malformed "xyz") = (fourStore, .sent 500 (.error "Payment failed")) ∧
    (payFee fourStore (.objectId 1)).2 = .sent 200 (.message "Payment successful!") ∧
    ((payFee fourStore (.objectId 1)).1.requests.map FeeRequest.status =
      ["Pending", "Paid", "Rejected", "Paid"]) :=
  ⟨(payFee_only_from_approved fourStore 0 "xyz").1 sampleRequest (by decide) (by decide),
    (payFee_only_from_approved fourStore 2 "xyz").1 rejectedRequest (by decide) (by decide),
    (payFee_only_from_approved fourStore 3 "xyz").1 paidRequest (by decide) (by decide),
    (payFee_only_from_approved fourStore 7 "xyz").2.1 (by decide),
    (payFee_only_from_approved fourStore 7 "xyz").2.2.1,
    by decide, by decide⟩

/-- C2: whatever the body of `POST /request-fee`, a `status` of the client included, every
request of the store afterwards was either there before or has status `Pending`; a body whose
`feeType` is absent or in the enum stores exactly one new request, at the end, under a new id
and with status `Pending`; a body with another `feeType` stores nothing. -/
theorem requestFee_status_pending (s : Store) (b : FeeBody) :
    (∀ r ∈ (requestFee s b).1.requests, r ∈ s.requests ∨ r.status = "Pending") ∧
    ((b.feeType = none ∨ b.feeType = some "semester" ∨ b.feeType = some "minor") →
      ∃ r, (requestFee s b).1.requests = s.requests ++ [r] ∧ r.status = "Pending" ∧
        findById s.requests r.id = none ∧ (requestFee s b).1.users = s.users ∧
        (requestFee s b).2 = .sent 200 (.message "Fee request submitted successfully!")) ∧
    (¬ (b.feeType = none ∨ b.feeType = some "semester" ∨ b.feeType = some "minor") →
      requestFee s b = (s, .threw "ValidationError")) := by
  have hvalid : validFeeRequest (newRequest s b) = true ↔
      (b.feeType = none ∨ b.feeType = some "semester" ∨ b.feeType = some "minor") := by
    cases hf : b.feeType with
    | none => simp [validFeeRequest, newRequest, hf]
    | some t => simp [validFeeRequest, newRequest, hf, feeTypeEnum]
  refine ⟨?_, ?_, ?_⟩
  · intro r hr
    by_cases hv : validFeeRequest (newRequest s b) = true
    · rw [requestFee, if_pos hv] at hr
      rcases List.mem_append.mp hr with h | h
      · exact Or.inl h
      · right
        rw [List.mem_singleton.mp h]
        rfl
    · rw [requestFee, if_neg hv] at hr
      exact Or.inl hr
  · intro hv
    rw [requestFee, if_pos (hvalid.mpr hv)]
    exact ⟨newRequest s b, rfl, rfl, findById_fresh s.requests, rfl, rfl⟩
  · intro hv
    rw [requestFee, if_neg (mt hvalid.mp hv)]

/-- C2 at concrete inputs: a submission that carries status `Paid` is stored as `Pending`. -/
theorem requestFee_status_pending_witness :
    sampleBody.status = some "Paid" ∧
    (requestFee Store.empty sampleBody).1.requests = [sampleRequest] ∧
    sampleRequest.status = "Pending" ∧
    requestFee fourStore badFeeTypeBody = (fourStore, .threw "ValidationError") :=
  ⟨rfl, by decide, rfl,
    (requestFee_status_pending fourStore badFeeTypeBody).2.2 (by decide)⟩

/-- C9: `GET /status/:regNumber` always answers with the success code and leaves the store as
it is: with the payload of status `Not Found` when no stored request has the regNumber, and
otherwise with a stored request that has it (the first one). -/
theorem getStatus_soft_fail (s : Store) (regNumber : String) :
    (getStatus s regNumber).1 = s ∧
    (getStatus s regNumber).2.isSuccess = true ∧
    (((∀ r ∈ s.requests, r.regNumber ≠ some regNumber) ∧
        (getStatus s regNumber).2 = .sent 200 (.status "Not Found")) ∨
      (∃ r ∈ s.requests, r.regNumber = some regNumber ∧
        (getStatus s regNumber).2 = .sent 200 (.request r))) := by
  unfold getStatus
  cases h : findByRegNumber s.requests regNumber with
  | none =>
    refine ⟨rfl, rfl, Or.inl ⟨?_, rfl⟩⟩
    unfold findByRegNumber at h
    rw [List.find?_eq_none] at h
    intro r hr
    simpa using h r hr
  | some r =>
    refine ⟨rfl, rfl, Or.inr ⟨r, ?_, ?_, rfl⟩⟩
    · exact List.mem_of_find?_eq_some h
    · have := List.find?_some h
      simpa using this

/-- C9 at concrete inputs: an unknown regNumber gets the `Not Found` payload with the success
code, a known one gets its request. -/
theorem getStatus_soft_fail_witness :
    getStatus fourStore "21BCE999" = (fourStore, .sent 200 (.status "Not Found")) ∧
    getStatus fourStore "21BCE003" = (fourStore, .sent 200 (.request rejectedRequest)) ∧
    (getStatus fourStore "21BCE999").2.isSuccess = true :=
  ⟨by decide, by decide, (getStatus_soft_fail fourStore "21BCE999").2.1⟩

/-- C10: `GET /all-requests` answers with every stored request, `GET /requests` with exactly
those of them whose status is `Pending`, in the same order, and neither changes the store. -/
theorem getRequests_pending_of_all (s : Store) :
    ∃ all pending : List FeeRequest,
      getAllRequests s = (s, .sent 200 (.requests all)) ∧
      getRequests s = (s, .sent 200 (.requests pending)) ∧
      all = s.requests ∧
      pending = all.filter (fun r => decide (r.status = "Pending")) ∧
      ∀ r, r ∈ pending ↔ r ∈ all ∧ r.status = "Pending" := by
  refine ⟨s.requests, s.requests.filter (fun r => decide (r.status = "Pending")), ?_, rfl, rfl,
    rfl, ?_⟩
  · simp [getAllRequests]
  · intro r
    simp [List.mem_filter]

/-- C10 at concrete inputs: of the four requests of `fourStore`, the Pending one is listed
for the faculty and all four for the HOD. -/
theorem getRequests_pending_of_all_witness :
    getRequests fourStore = (fourStore, .sent 200 (.requests [sampleRequest])) ∧
    getAllRequests fourStore =
      (fourStore,
        .sent 200 (.requests [sampleRequest, approvedRequest, rejectedRequest, paidRequest])) ∧
    ∃ all pending : List FeeRequest,
      getAllRequests fourStore = (fourStore, .sent 200 (.requests all)) ∧
      getRequests fourStore = (fourStore, .sent 200 (.requests pending)) ∧
      all = fourStore.requests ∧
      pending = all.filter (fun r => decide (r.status = "Pending")) ∧
      ∀ r, r ∈ pending ↔ r ∈ all ∧ r.status = "Pending" :=
  ⟨by decide, by decide, getRequests_pending_of_all fourStore⟩

/-- C3: on a Pending request with id `i`, `POST /faculty/update` with status `Approved`,
reason `r` and faculty `f` succeeds and leaves the request with exactly these three values,
and `POST /pay-fee` on `i` right after succeeds and leaves it with status `Paid`. -/
theorem approve_then_pay (s : Store) (i : ObjectId) (r f : String) (req : FeeRequest)
    (h : findById s.requests i = some req) (_hp : req.status = "Pending") :
    (facultyUpdate s ⟨.objectId i, "Approved", some r, some f⟩).2 =
        .sent 200 (.message "Request updated successfully!") ∧
    findById (facultyUpdate s ⟨.objectId i, "Approved", some r, some f⟩).1.requests i =
        some { req with status := "Approved", reason := some r, faculty := some f } ∧
    (payFee (facultyUpdate s ⟨.objectId i, "Approved", some r, some f⟩).1
        (.objectId i)).2 =
        .sent 200 (.message "Payment successful!") ∧
    findById (payFee (facultyUpdate s ⟨.objectId i, "Approved", some r, some f⟩).1
        (.objectId i)).1.requests i =
        some { req with status := "Paid", reason := some r, faculty := some f } := by
  have hid := findById_id h
  have h1 :
      findById (facultyUpdate s ⟨.objectId i, "Approved", some r, some f⟩).1.requests i =
      some { req with status := "Approved", reason := some r, faculty := some f } := by
    simp [facultyUpdate, h, findById_saveExisting, hid, orStr_some_empty]
  have hpay := payFee_of_approved _ i _ h1 rfl
  refine ⟨?_, h1, hpay.1, ?_⟩
  · simp [facultyUpdate, h]
  · rw [hpay.2]

/-- C3 at concrete inputs: the Pending request 0 of `fourStore`, reason `ok`, faculty
`facultyX`. -/
theorem approve_then_pay_witness :
    findById (facultyUpdate fourStore
        ⟨.objectId 0, "Approved", some "ok", some "facultyX"⟩).1.requests 0
      = some { sampleRequest with
          status := "Approved", reason := some "ok", faculty := some "facultyX" } ∧
    findById (payFee (facultyUpdate fourStore
        ⟨.objectId 0, "Approved", some "ok", some "facultyX"⟩).1
        (.objectId 0)).1.requests 0
      = some { sampleRequest with
          status := "Paid", reason := some "ok", faculty := some "facultyX" } :=
  ⟨(approve_then_pay fourStore 0 "ok" "facultyX" sampleRequest (by decide) (by decide)).2.1,
    (approve_then_pay fourStore 0 "ok" "facultyX" sampleRequest (by decide) (by decide)).2.2.2⟩

/-- C8: a login that answers with the success code answers with the `role` of the stored
account and with the `redirect` that this role alone determines: `/main.html` for `student`,
`/faculty.html` for `faculty`, `/hod.html` for `hod`, and `/main.html` for any other role. -/
theorem login_redirect_by_role (lib : Lib) (s : Store) (b : LoginBody) (body : Body)
    (h : (login lib s b).2 = .sent 200 body) :
    (∃ user, findUserByEmail s.users b.email = some user ∧
      body = .loggedIn "Login successful" (lib.sign user.id user.role "secret123" "1h")
        user.role (redirectFor user.role)) ∧
    redirectFor "student" = "/main.html" ∧
    redirectFor "faculty" = "/faculty.html" ∧
    redirectFor "hod" = "/hod.html" ∧
    (∀ role, role ≠ "student" → role ≠ "faculty" → role ≠ "hod" →
      redirectFor role = "/main.html") := by
  refine ⟨?_, by decide, by decide, by decide, ?_⟩
  · unfold login at h
    cases hu : findUserByEmail s.users b.email with
    | none => simp [hu] at h
    | some user =>
      by_cases hm : lib.compare b.password user.password = true
      · simp [hu, hm] at h
        exact ⟨user, rfl, h.symm⟩
      · simp [hu, hm] at h
  · intro role h1 h2 h3
    simp [redirectFor, h1, h2, h3]

/-- C8 at concrete inputs: the faculty account of `oneUserStore` logs in and is sent to the
faculty page. -/
theorem login_redirect_by_role_witness :
    (login toyLib oneUserStore ⟨"ravi@example.org", "pw2"⟩).2 =
      .sent 200 (.loggedIn "Login successful" "faculty.secret123.1h" "faculty"
        "/faculty.html") ∧
    ∃ user, findUserByEmail oneUserStore.users "ravi@example.org" = some user ∧
      Body.loggedIn "Login successful" "faculty.secret123.1h" "faculty" "/faculty.html" =
        .loggedIn "Login successful" (toyLib.sign user.id user.role "secret123" "1h")
          user.role (redirectFor user.role) :=
  ⟨by decide,
    (login_redirect_by_role toyLib oneUserStore ⟨"ravi@example.org", "pw2"⟩
      (.loggedIn "Login successful" "faculty.secret123.1h" "faculty" "/faculty.html")
      (by decide)).1⟩

/-- C6: `POST /signup` with an email that an account of the store already has answers 400
and leaves the store as it is; and after every sequence of calls from the empty database,
signups among them, no two accounts of the store have the same email. -/
theorem signup_duplicate_email (lib : Lib) (s : Store) (b : SignupBody) (salt : String)
    (ops : List Op) :
    ((∃ u ∈ s.users, u.email = b.email) →
      signup lib s b salt = (s, .sent 400 (.error "Email already exists"))) ∧
    ((run lib Store.empty ops).users.map User.email).Nodup := by
  refine ⟨?_, run_emails_nodup lib ops Store.empty (by simp [Store.empty])⟩
  rintro ⟨u, hu, hue⟩
  cases hf : findUserByEmail s.users b.email with
  | none => exact absurd hue ((findUserByEmail_eq_none _ _).mp hf u hu)
  | some x => simp [signup, hf]

/-- C6 at concrete inputs: the same signup twice; the second one answers 400, and one account
is stored. -/
theorem signup_duplicate_email_witness :
    signup toyLib (signup toyLib Store.empty sampleSignup "s1").1 sampleSignup "s2" =
      ((signup toyLib Store.empty sampleSignup "s1").1,
        .sent 400 (.error "Email already exists")) ∧
    (run toyLib Store.empty [.signup sampleSignup "s1", .signup sampleSignup "s2"]).users.map
      User.email = ["asha@example.org"] :=
  ⟨(signup_duplicate_email toyLib (signup toyLib Store.empty sampleSignup "s1").1 sampleSignup
      "s2" []).1 (by decide),
    by decide⟩

/-- C7: when a password verifies against its own hash, a signup with an email that no account
of the store has and with a role of the enum succeeds, and a login with the same email and
password, right after or after any further calls, succeeds with a token and the role of the
signup. -/
theorem signup_then_login (lib : Lib) (s : Store) (b : SignupBody) (salt : String)
    (ops : List Op)
    (hc : ∀ p n t, lib.compare p (lib.hash p n t) = true)
    (hnew : ∀ u ∈ s.users, u.email ≠ b.email)
    (hrole : b.designation ∈ roleEnum) :
    (signup lib s b salt).2 = .sent 200 (.signedUp "Signup successful!" "/login.html") ∧
    (login lib (signup lib s b salt).1 ⟨b.email, b.password⟩).2 =
      .sent 200 (.loggedIn "Login successful"
        (lib.sign (freshId (s.users.map User.id)) b.designation "secret123" "1h")
        b.designation (redirectFor b.designation)) ∧
    (login lib (run lib (signup lib s b salt).1 ops) ⟨b.email, b.password⟩).2 =
      .sent 200 (.loggedIn "Login successful"
        (lib.sign (freshId (s.users.map User.id)) b.designation "secret123" "1h")
        b.designation (redirectFor b.designation)) := by
  have hnone := (findUserByEmail_eq_none s.users b.email).mpr hnew
  have hvalid : validUser (newUser lib s b salt) = true := by
    have h3 : b.designation = "student" ∨ b.designation = "faculty" ∨ b.designation = "hod" := by
      simpa [roleEnum] using hrole
    rcases h3 with h | h | h <;> simp [validUser, newUser, roleEnum, h]
  have hs : signup lib s b salt =
      ({ s with users := s.users ++ [newUser lib s b salt] },
        .sent 200 (.signedUp "Signup successful!" "/login.html")) := by
    simp [signup, hnone, hvalid]
  have hfind : findUserByEmail (signup lib s b salt).1.users b.email =
      some (newUser lib s b salt) := by
    rw [hs]
    unfold findUserByEmail at hnone ⊢
    simp [List.find?_append, hnone, List.find?, newUser]
  have hlogin : ∀ s2 : Store, findUserByEmail s2.users b.email =
      some (newUser lib s b salt) →
      (login lib s2 ⟨b.email, b.password⟩).2 =
        .sent 200 (.loggedIn "Login successful"
          (lib.sign (freshId (s.users.map User.id)) b.designation "secret123" "1h")
          b.designation (redirectFor b.designation)) := by
    intro s2 h2
    simp [login, h2, hc, newUser]
  refine ⟨by rw [hs], hlogin _ hfind, hlogin _ (run_findUser lib ops _ _ _ hfind)⟩

/-- C7 at concrete inputs: a student signs up at `oneUserStore` and logs in. -/
theorem signup_then_login_witness :
    (signup toyLib oneUserStore sampleSignup "s1").2 =
      .sent 200 (.signedUp "Signup successful!" "/login.html") ∧
    (login toyLib (signup toyLib oneUserStore sampleSignup "s1").1
        ⟨"asha@example.org", "pw1"⟩).2 =
      .sent 200 (.loggedIn "Login successful" "student.secret123.1h" "student" "/main.html") :=
  ⟨(signup_then_login toyLib oneUserStore sampleSignup "s1" [] toyLib_compare_hash
      (by decide) (by decide)).1,
    (signup_then_login toyLib oneUserStore sampleSignup "s1" [] toyLib_compare_hash
      (by decide) (by decide)).2.1⟩

/-- C4: the fee fields never change.  Under every sequence of calls, a request that
`findById` finds keeps its studentName, regNumber, year, branch, section, feeType, amount,
crtFee and attendance; a submission with a valid `feeType` is stored at the end under a new
id, and after every sequence of calls the request with this id has the fee fields of the
body (`crtFee || 0`, `attendance || ""`); and a submission of amount 5000 without `crtFee`,
approved and then paid, ends with status `Paid`, amount 5000 and crtFee 0. -/
theorem fee_fields_immutable (lib : Lib) (s : Store) (b : FeeBody) (ops : List Op)
    (hv : b.feeType = none ∨ b.feeType = some "semester" ∨ b.feeType = some "minor") :
    (∀ i r0, findById s.requests i = some r0 →
      ∃ r, findById (run lib s ops).requests i = some r ∧ r.feeFields = r0.feeFields) ∧
    (requestFee s b).1.requests = s.requests ++ [newRequest s b] ∧
    findById s.requests (newRequest s b).id = none ∧
    (∃ r, findById (run lib (requestFee s b).1 ops).requests (newRequest s b).id = some r ∧
      r.feeFields = (b.studentName, b.regNumber, b.year, b.branch, b.section_, b.feeType,
        b.amount, orNum b.crtFee 0, orStr b.attendance "")) ∧
    (b.amount = some 5000 → b.crtFee = none → ∀ reason faculty : String,
      ∃ r, findById (run lib (requestFee s b).1
          [.facultyUpdate
              ⟨.objectId (newRequest s b).id, "Approved", some reason, some faculty⟩,
            .payFee (.objectId (newRequest s b).id)]).requests (newRequest s b).id = some r ∧
        r.status = "Paid" ∧ r.amount = some 5000 ∧ r.crtFee = 0) := by
  have hstore := (requestFee_appends s b hv)
  have hnew : findById (requestFee s b).1.requests (newRequest s b).id =
      some (newRequest s b) := by
    rw [hstore, findById_append]
    have hnone : findById s.requests (newRequest s b).id = none := findById_fresh s.requests
    rw [hnone]
    simp
  refine ⟨fun i r0 h0 => run_findById_feeFields lib ops s i r0 h0, hstore,
    findById_fresh s.requests, ?_, ?_⟩
  · rcases run_findById_feeFields lib ops _ _ _ hnew with ⟨r, hr, hf⟩
    exact ⟨r, hr, hf⟩
  · intro ha hc reason faculty
    have h3 := (update_pay_run lib (requestFee s b).1 (newRequest s b).id reason faculty
      (newRequest s b) hnew)
    refine ⟨_, h3, rfl, ?_, ?_⟩
    · simpa [newRequest] using ha
    · simp [newRequest, hc, orNum]

/-- C4 at concrete inputs: `sampleBody` (amount 5000, no crtFee) submitted to the empty
database, approved and paid: the fee fields are those of the body, and the request ends with
status `Paid`, amount 5000 and crtFee 0. -/
theorem fee_fields_immutable_witness :
    (∃ r, findById (run toyLib (requestFee Store.empty sampleBody).1
        [.facultyUpdate ⟨.objectId 0, "Approved", some "ok", some "facultyX"⟩,
          .payFee (.objectId 0)]).requests 0
        = some r ∧
      r.feeFields = (some "Asha", some "21BCE001", some "3", some "CSE", some "A",
        some "semester", some 5000, 0, "")) ∧
    (∃ r, findById (run toyLib (requestFee Store.empty sampleBody).1
        [.facultyUpdate ⟨.objectId 0, "Approved", some "ok", some "facultyX"⟩,
          .payFee (.objectId 0)]).requests 0
        = some r ∧
      r.status = "Paid" ∧ r.amount = some 5000 ∧ r.crtFee = 0) :=
  ⟨(fee_fields_immutable toyLib Store.empty sampleBody
      [.facultyUpdate ⟨.objectId 0, "Approved", some "ok", some "facultyX"⟩,
        .payFee (.objectId 0)]
      (by decide)).2.2.2.1,
    (fee_fields_immutable toyLib Store.empty sampleBody [] (by decide)).2.2.2.2 rfl rfl
      "ok" "facultyX"⟩

/-- C5, as stated, fails: from the empty database, a submission and a rejection lead to a
store whose request is `Rejected`, and one more `POST /faculty/update` makes it `Approved`;
a submission, an approval and a payment lead to a store whose request is `Paid`, and one more
`POST /faculty/update` makes it `Pending`. -/
theorem update_changes_terminal_status :
    (run toyLib Store.empty
        [.requestFee sampleBody,
          .facultyUpdate ⟨.objectId 0, "Rejected", some "no", some "facultyX"⟩]
      ).requests.map FeeRequest.status = ["Rejected"] ∧
    (step toyLib (run toyLib Store.empty
        [.requestFee sampleBody,
          .facultyUpdate ⟨.objectId 0, "Rejected", some "no", some "facultyX"⟩])
        (.facultyUpdate ⟨.objectId 0, "Approved", some "ok", some "facultyY"⟩)
      ).1.requests.map FeeRequest.status = ["Approved"] ∧
    (run toyLib Store.empty
        [.requestFee sampleBody,
          .facultyUpdate ⟨.objectId 0, "Approved", some "ok", some "facultyX"⟩,
          .payFee (.objectId 0)]
      ).requests.map FeeRequest.status = ["Paid"] ∧
    (step toyLib (run toyLib Store.empty
        [.requestFee sampleBody,
          .facultyUpdate ⟨.objectId 0, "Approved", some "ok", some "facultyX"⟩,
          .payFee (.objectId 0)])
        (.facultyUpdate ⟨.objectId 0, "Pending", none, none⟩)
      ).1.requests.map FeeRequest.status = ["Pending"] ∧
    ¬ (∀ (s : Store) (op : Op) (k : Nat) (r r2 : FeeRequest), Reachable toyLib s →
        s.requests[k]? = some r → (step toyLib s op).1.requests[k]? = some r2 →
        (r.status = "Rejected" ∨ r.status = "Paid") → r2.status = r.status) := by
  refine ⟨by decide, by decide, by decide, by decide, ?_⟩
  intro hall
  have h := hall
    (run toyLib Store.empty
      [.requestFee sampleBody,
          .facultyUpdate ⟨.objectId 0, "Rejected", some "no", some "facultyX"⟩])
    (.facultyUpdate ⟨.objectId 0, "Approved", some "ok", some "facultyY"⟩) 0
    { sampleRequest with status := "Rejected", reason := some "no", faculty := some "facultyX" }
    { sampleRequest with status := "Approved", reason := some "ok", faculty := some "facultyY" }
    ⟨_, rfl⟩ (by decide) (by decide) (Or.inl rfl)
  revert h
  decide

/-- C5, amended: in every store, reachable or not, a call other than `POST /faculty/update`
leaves every stored request as it is, except `POST /pay-fee` on the id of an `Approved`
request, which turns it into the same request with status `Paid`; so no such call changes a
`Rejected` or a `Paid` request, or a `Pending` one.  `POST /faculty/update` leaves every
request as it is except the one it addresses, whose status, reason and faculty it overwrites
whatever the status was. -/
theorem status_changes (lib : Lib) (s : Store) (op : Op) (k : Nat) (r : FeeRequest)
    (h : s.requests[k]? = some r) :
    ((∀ b, op ≠ .facultyUpdate b) →
      (step lib s op).1.requests[k]? = some r ∨
        (op = .payFee (.objectId r.id) ∧ r.status = "Approved" ∧
          (step lib s op).1.requests[k]? = some { r with status := "Paid" })) ∧
    (∀ b, op = .facultyUpdate b →
      (step lib s op).1.requests[k]? = some r ∨
        (b.id = .objectId r.id ∧ findById s.requests r.id = some r ∧
          (step lib s op).1.requests[k]? =
            some { r with status := b.status, reason := some (orStr b.reason ""),
                          faculty := b.faculty })) ∧
    (∀ b, b.id = .objectId r.id → findById s.requests r.id = some r →
      findById (step lib s (.facultyUpdate b)).1.requests r.id =
        some { r with status := b.status, reason := some (orStr b.reason ""),
                      faculty := b.faculty }) := by
  refine ⟨?_, ?_, ?_⟩
  · intro hu
    by_cases hp : ∃ p, op = .payFee p
    · rcases hp with ⟨p, rfl⟩
      rcases payFee_at s p k r h with h1 | ⟨h1, h2, h3⟩
      · exact Or.inl h1
      · exact Or.inr ⟨by rw [h1], h2, h3⟩
    · left
      rcases step_requests_other lib s op hu (fun i hi => hp ⟨i, hi⟩) with h1 | ⟨x, h1, _, _⟩
      · rw [h1]; exact h
      · rw [h1]; exact getElem?_append_single _ _ _ _ h
  · rintro b rfl
    exact facultyUpdate_at s b k r h
  · intro b hb hf
    simp only [step]
    rw [facultyUpdate_some s b r.id r hb hf]
    have hid : (FeeRequest.decided r b).id = r.id := rfl
    simp [findById_saveExisting, hid, hf, FeeRequest.decided]

/-- C5 amended, at concrete inputs: in `fourStore`, paying request 2 leaves the `Rejected`
request at position 2 as it is, and an update of request 3 overwrites the `Paid` request at
position 3. -/
theorem status_changes_witness :
    ((step toyLib fourStore (.payFee (.objectId 2))).1.requests[2]? = some rejectedRequest ∨
      (Op.payFee (.objectId 2) = .payFee (.objectId rejectedRequest.id) ∧
        rejectedRequest.status = "Approved" ∧
        (step toyLib fourStore (.payFee (.objectId 2))).1.requests[2]? =
          some { rejectedRequest with status := "Paid" })) ∧
    findById (step toyLib fourStore
        (.facultyUpdate ⟨.objectId 3, "Pending", none, some "facultyX"⟩)).1.requests 3 =
      some { paidRequest with status := "Pending", reason := some (orStr none ""),
                              faculty := some "facultyX" } :=
  ⟨(status_changes toyLib fourStore (.payFee (.objectId 2)) 2 rejectedRequest (by decide)).1
      (by intro b hb; cases hb),
    (status_changes toyLib fourStore (.payFee (.objectId 2)) 3 paidRequest (by decide)).2.2
      ⟨.objectId 3, "Pending", none, some "facultyX"⟩ rfl (by decide)⟩

end FeePortal
